import Mathlib

/-!
Verification of the InsightLens analysis engine (`src/services/dataAnalyzer.ts`,
class `DataAnalyzer`) against its natural-language specification.

The engine is a pure function from a raw CSV text to an `AnalysisResult`
(overview, metrics, charts, insights, recommendations).  We give a shallow
embedding: JavaScript strings become `String`, JS numbers become `ℚ`
(all the arithmetic performed by the engine on realistic inputs is exact
decimal arithmetic), JS objects used as string-keyed maps become
insertion-ordered association lists, and the two runtime exceptions the
engine can raise become an explicit error type.

Host-function models (`parseFloat`, `Number`, `Date.parse`, `toLocaleString`)
cover the portions of their behaviour the engine exercises on CSV cell data:
decimal numeric literals and ISO `YYYY-MM-DD` calendar dates.  Engine-host
behaviours outside that fragment (hexadecimal literals, the `Infinity`
literal, locale-specific date fallback formats) are noted where they are
elided.
-/

namespace InsightLens

/-! ## JavaScript string primitives -/

/-- Model of `String.prototype.trim`: drop whitespace from both ends (char-list form). -/
def trimChars (cs : List Char) : List Char :=
  ((cs.dropWhile Char.isWhitespace).reverse.dropWhile Char.isWhitespace).reverse

/-- Model of `String.prototype.trim` on strings. -/
def jsTrim (s : String) : String := String.mk (trimChars s.data)

/-- Model of `String.prototype.split(sep)` on character lists (JS split with a
one-character string separator, no limit): the empty string splits to
`[""]`, separators at the ends produce empty pieces. -/
def splitCharsOn (sep : Char) : List Char → List (List Char)
  | [] => [[]]
  | c :: rest =>
    let r := splitCharsOn sep rest
    if c = sep then [] :: r
    else (c :: r.headD []) :: r.tail

/-- Model of `String.prototype.split(sep)` on strings. -/
def splitString (sep : Char) (s : String) : List String :=
  (splitCharsOn sep s.data).map String.mk

/-- Model of `String.prototype.toLowerCase` (ASCII fragment, which is all the
engine's name prefixes exercise). -/
def jsToLower (s : String) : String := String.mk (s.data.map Char.toLower)

/-- Model of `s` starts with the pattern `p` (character-list form of the anchored
regex tests `/^(…)/`). -/
def startsWithChars : List Char → List Char → Bool
  | _, [] => true
  | [], _ :: _ => false
  | c :: s, p :: ps => c = p && startsWithChars s ps

/-! ## JavaScript numeric conversions

Modelled fragment: signed decimal literals with optional fraction and
exponent, which is what CSV numeric cells use.  `Infinity` and radix-prefixed
literals are outside the modelled fragment. -/

/-- Numeric value of a decimal digit character. -/
def digitVal (c : Char) : ℕ := c.toNat - 48

/-- Longest leading run of decimal digits, together with the rest. -/
def takeDigits : List Char → List Char × List Char
  | [] => ([], [])
  | c :: rest =>
    if c.isDigit then
      let p := takeDigits rest
      (c :: p.1, p.2)
    else ([], c :: rest)

/-- Value of a digit run read in base 10. -/
def digitsVal (ds : List Char) : ℕ :=
  ds.foldl (fun acc c => 10 * acc + digitVal c) 0

/-- Optional exponent part `e[+-]?digits`; consumed only when digits follow
the marker, mirroring `parseFloat("1e") = 1`. -/
def parseExponent (cs : List Char) : ℤ × List Char :=
  match cs with
  | [] => (0, [])
  | c :: rest =>
    if c = 'e' ∨ c = 'E' then
      match rest with
      | [] => (0, cs)
      | s :: rest2 =>
        if s = '+' then
          let p := takeDigits rest2
          if p.1.isEmpty then (0, cs) else ((digitsVal p.1 : ℤ), p.2)
        else if s = '-' then
          let p := takeDigits rest2
          if p.1.isEmpty then (0, cs) else (-(digitsVal p.1 : ℤ), p.2)
        else
          let p := takeDigits rest
          if p.1.isEmpty then (0, cs) else ((digitsVal p.1 : ℤ), p.2)
    else (0, cs)

/-- Parse a leading signed decimal literal; returns its exact value and the
unconsumed characters, or `none` when no digits could be read. -/
def parseDecimal (cs : List Char) : Option (ℚ × List Char) :=
  let sp : ℚ × List Char :=
    match cs with
    | '+' :: r => (1, r)
    | '-' :: r => (-1, r)
    | _ => (1, cs)
  let ipp := takeDigits sp.2
  let fpp : List Char × List Char :=
    match ipp.2 with
    | '.' :: r => takeDigits r
    | _ => ([], ipp.2)
  if ipp.1.isEmpty ∧ fpp.1.isEmpty then none
  else
    let mant : ℚ := (digitsVal ipp.1 : ℚ) + (digitsVal fpp.1 : ℚ) / (10 : ℚ) ^ fpp.1.length
    let ep := parseExponent fpp.2
    some (sp.1 * mant * (10 : ℚ) ^ ep.1, ep.2)

/-- Model of `parseFloat(v)`: skip leading whitespace, read the longest numeric
literal, ignore the rest; `none` models `NaN`. -/
def jsParseFloat (s : String) : Option ℚ :=
  (parseDecimal (s.data.dropWhile Char.isWhitespace)).map Prod.fst

/-- Model of `Number(v)` restricted to finite results (the engine only uses it through
`isFinite(v)`): the whole trimmed string must be a numeric literal; the empty
string converts to `0`; `none` models `NaN` and the infinities. -/
def jsNumberFinite (s : String) : Option ℚ :=
  let cs := trimChars s.data
  if cs.isEmpty then some 0
  else
    match parseDecimal cs with
    | some (q, []) => some q
    | _ => none

/-- The engine's per-value numeric test:
`!isNaN(parseFloat(v)) && isFinite(v)`. -/
def isNumericCell (v : String) : Bool :=
  (jsParseFloat v).isSome && (jsNumberFinite v).isSome

/-! ## JavaScript date parsing -/

/-- Gregorian leap-year rule. -/
def isLeapYear (y : ℕ) : Bool :=
  (y % 4 == 0) && (!(y % 100 == 0) || (y % 400 == 0))

/-- Days in a month of a given year. -/
def daysInMonth (y m : ℕ) : ℕ :=
  if m = 2 then (if isLeapYear y then 29 else 28)
  else if m = 4 ∨ m = 6 ∨ m = 9 ∨ m = 11 then 30
  else 31

/-- Model of `Date.parse` / `new Date(string)` on the ISO calendar-date form
`YYYY-MM-DD`, the date shape CSV cells carry; a successful parse yields the
(year, month, day) triple, `none` models an invalid date.  Host-specific
fallback date formats are outside the modelled fragment. -/
def jsDateParse (s : String) : Option (ℕ × ℕ × ℕ) :=
  match s.data with
  | [a, b, c, d, h1, e, f, h2, g, k] =>
    if h1 = '-' ∧ h2 = '-' ∧ [a, b, c, d, e, f, g, k].all Char.isDigit then
      let y := digitsVal [a, b, c, d]
      let mo := digitsVal [e, f]
      let da := digitsVal [g, k]
      if 1 ≤ mo ∧ mo ≤ 12 ∧ 1 ≤ da ∧ da ≤ daysInMonth y mo then some (y, mo, da)
      else none
    else none
  | _ => none

/-- Left-pad a numeral to two digits. -/
def pad2 (n : ℕ) : String := if n < 10 then "0" ++ toString n else toString n

/-- Left-pad a numeral to four digits. -/
def pad4 (n : ℕ) : String :=
  if n < 10 then "000" ++ toString n
  else if n < 100 then "00" ++ toString n
  else if n < 1000 then "0" ++ toString n
  else toString n

/-- Model of `new Date(s).toISOString().split('T')[0]` for a successfully parsed
calendar date (an ISO date-only string denotes UTC midnight, so the calendar
day is returned unchanged). -/
def isoDayKey (d : ℕ × ℕ × ℕ) : String :=
  pad4 d.1 ++ "-" ++ pad2 d.2.1 ++ "-" ++ pad2 d.2.2

/-! ## `toLocaleString` (en-US default) -/

/-- Insert a `,` after every third character of a reversed digit list. -/
def group3 : List Char → List Char
  | a :: b :: c :: d :: rest => a :: b :: c :: ',' :: group3 (d :: rest)
  | l => l

/-- Thousands grouping of a natural numeral. -/
def natCommas (n : ℕ) : String :=
  String.mk ((group3 (toString n).data.reverse).reverse)

/-- Drop trailing `'0'` characters. -/
def stripTrailingZeros (cs : List Char) : List Char :=
  (cs.reverse.dropWhile (fun c => c = '0')).reverse

/-- Model of `Number.prototype.toLocaleString()` with the en-US defaults: at most
three fraction digits (half-away-from-zero rounding), thousands-grouped
integer part. -/
def jsToLocaleString (q : ℚ) : String :=
  let neg := q < 0
  let a : ℚ := if q < 0 then -q else q
  let scaled : ℕ := (round (a * 1000)).toNat
  let ip := scaled / 1000
  let fp := scaled % 1000
  let fracDigits := stripTrailingZeros (pad4 fp).data.tail
  let base := natCommas ip ++ (if fracDigits.isEmpty then "" else "." ++ String.mk fracDigits)
  if neg ∧ scaled ≠ 0 then "-" ++ base else base

/-! ## CSV tokenizing (`parseCSV`, `parseCSVLine`) -/

/-- Field cleanup applied to every emitted token:
`.trim().replace(/"/g, '')` — trim, then delete every `'"'` character. -/
def cleanFieldChars (cs : List Char) : String :=
  String.mk ((trimChars cs).filter (fun c => c ≠ '"'))

/-- Model of `cleanFieldChars` on strings (used for header fields). -/
def cleanField (s : String) : String := cleanFieldChars s.data

/-- The character loop of `parseCSVLine`: `result` are the fields pushed so
far, `current` the field being accumulated, `inQuotes` the quote-toggle flag;
after the loop the last field is pushed. -/
def parseCSVLineAux : List String → List Char → Bool → List Char → List String
  | result, current, _, [] => result ++ [cleanFieldChars current]
  | result, current, inQuotes, c :: rest =>
    if c = '"' then parseCSVLineAux result current (!inQuotes) rest
    else if c = ',' ∧ inQuotes = false then
      parseCSVLineAux (result ++ [cleanFieldChars current]) [] inQuotes rest
    else parseCSVLineAux result (current ++ [c]) inQuotes rest

/-- Model of `DataAnalyzer.parseCSVLine`. -/
def parseCSVLine (line : String) : List String :=
  parseCSVLineAux [] [] false line.data

/-! ## Rows as JS objects

A parsed row is a JS object keyed by column name.  We model it as an
insertion-ordered association list: assigning an existing key updates its
value in place, assigning a fresh key appends. -/

/-- JS property assignment `obj[k] = v`. -/
def objSet (obj : List (String × String)) (k v : String) : List (String × String) :=
  if k ∈ obj.map Prod.fst then
    obj.map (fun p => if p.1 = k then (k, v) else p)
  else obj ++ [(k, v)]

/-- Property read `row[col]`; a missing key yields `undefined`, which every
consumer in the engine treats identically to the empty string. -/
def rowGet (row : List (String × String)) (col : String) : String :=
  ((row.find? (fun p => p.1 = col)).map Prod.snd).getD ""

/-- The `columns.forEach((col, index) => { row[col] = values[index] || '' })`
loop building one row object. -/
def buildRowAux (vals : List String) : List (String × String) → ℕ → List String →
    List (String × String)
  | row, _, [] => row
  | row, i, c :: cs => buildRowAux vals (objSet row c (vals.getD i "")) (i + 1) cs

/-- One parsed data row. -/
def buildRow (cols vals : List String) : List (String × String) :=
  buildRowAux vals [] 0 cols

/-- The two exceptions the engine can raise: the explicit
`Error('CSV file must have at least header and one data row')` thrown by
`parseCSV`, and the `RangeError: Invalid time value` thrown by
`toISOString()` on an invalid `Date` in the trend chart. -/
inductive JsError
  | malformedInput
  | invalidTime
deriving DecidableEq, Repr

/-- The private state of a constructed `DataAnalyzer`. -/
structure AnalyzerState where
  columns : List String
  data : List (List (String × String))
  rawData : String
deriving DecidableEq, Repr

/-- Model of `DataAnalyzer.parseCSV` (run by the constructor). -/
def parseCSV (csvData : String) : Except JsError AnalyzerState :=
  let lines := splitString '\n' (jsTrim csvData)
  if lines.length < 2 then .error .malformedInput
  else
    let columns := (splitString ',' (lines.headD "")).map cleanField
    let data := lines.tail.map (fun line => buildRow columns (parseCSVLine line))
    .ok { columns := columns, data := data, rawData := csvData }

/-! ## Column classification (`detectColumnType`) -/

inductive ColType
  | numeric
  | categorical
  | datetime
deriving DecidableEq, Repr

inductive BusinessType
  | revenue
  | customer
  | date
  | category
  | quantity
deriving DecidableEq, Repr

structure ColumnInfo where
  name : String
  type : ColType
  uniqueValues : ℕ
  nullCount : ℕ
  isBusinessRelevant : Bool
  businessType : Option BusinessType
deriving DecidableEq, Repr

/-- Model of `^(p1|p2|…)` name test: some alternative starts the (lower-cased) name. -/
def nameMatches (alts : List String) (lowerName : String) : Bool :=
  alts.any (fun p => startsWithChars lowerName.data p.data)

def revenueNames : List String :=
  ["amount", "price", "cost", "revenue", "sales", "total", "value"]

def customerNames : List String := ["customer", "client", "user", "id"]

def dateNames : List String := ["date", "time", "created", "updated"]

def businessRelevantNames : List String :=
  ["amount", "price", "cost", "revenue", "sales", "total", "customer",
   "client", "user", "id", "date", "time", "created", "updated"]

/-- Model of `DataAnalyzer.detectColumnType`. -/
def detectColumnType (columnName : String) (values : List String) : ColumnInfo :=
  let nonEmptyValues := values.filter (fun v => v ≠ "")
  let uniqueValues := nonEmptyValues.dedup.length
  let nullCount := values.length - nonEmptyValues.length
  let numericValues := nonEmptyValues.filter (fun v => isNumericCell v)
  let isNumeric : Bool := (numericValues.length : ℚ) > (nonEmptyValues.length : ℚ) * (8 / 10)
  let dateValues := nonEmptyValues.filter (fun v => (jsDateParse v).isSome)
  let isDateTime : Bool := (dateValues.length : ℚ) > (nonEmptyValues.length : ℚ) * (8 / 10)
  let lowerName := jsToLower columnName
  let isBusinessRelevant := nameMatches businessRelevantNames lowerName
  let businessType : Option BusinessType :=
    if nameMatches revenueNames lowerName then some .revenue
    else if nameMatches customerNames lowerName then some .customer
    else if nameMatches dateNames lowerName then some .date
    else if !isNumeric ∧ (uniqueValues : ℚ) < (nonEmptyValues.length : ℚ) * (5 / 10) then
      some .category
    else if isNumeric ∧ !nameMatches revenueNames lowerName then some .quantity
    else none
  { name := columnName
    type := if isNumeric then .numeric else if isDateTime then .datetime else .categorical
    uniqueValues := uniqueValues
    nullCount := nullCount
    isBusinessRelevant := isBusinessRelevant
    businessType := businessType }

/-! ## Dataset overview (`getDataOverview`) -/

structure DataOverview where
  totalRows : ℕ
  totalColumns : ℕ
  columns : List ColumnInfo
  missingValues : ℕ
  duplicateRows : ℕ
  memoryUsage : String
deriving DecidableEq, Repr

/-- Model of `DataAnalyzer.getDataOverview`. -/
def getDataOverview (st : AnalyzerState) : DataOverview :=
  let columns := st.columns.map (fun col =>
    detectColumnType col (st.data.map (fun row => rowGet row col)))
  let totalMissingValues := columns.foldl (fun sum col => sum + col.nullCount) 0
  let duplicateRows := st.data.length - st.data.dedup.length
  let kb : ℤ := round ((st.rawData.length : ℚ) / 1024)
  { totalRows := st.data.length
    totalColumns := st.columns.length
    columns := columns
    missingValues := totalMissingValues
    duplicateRows := duplicateRows
    memoryUsage := s!"{kb} KB" }

/-! ## Metrics (`generateMetrics`) -/

inductive Trend
  | up
  | down
  | neutral
deriving DecidableEq, Repr

inductive MetricFormat
  | currency
  | percentage
  | number
deriving DecidableEq, Repr

/-- Model of `Metric.value` may be a string or a number. -/
inductive MetricValue
  | num (q : ℚ)
  | str (s : String)
deriving DecidableEq, Repr

structure Metric where
  label : String
  value : MetricValue
  change : Option ℚ
  trend : Option Trend
  format : Option MetricFormat
deriving DecidableEq, Repr

/-- The revenue-column filter shared by `generateMetrics` and
`generateCharts`: `businessType === 'revenue' || type === 'numeric' &&
revenue-name-match` (JS `&&` binds tighter than `||`). -/
def isRevenueColumn (col : ColumnInfo) : Bool :=
  col.businessType = some .revenue ∨
    (col.type = .numeric ∧ nameMatches revenueNames (jsToLower col.name))

/-- Model of `DataAnalyzer.generateMetrics`. -/
def generateMetrics (st : AnalyzerState) : List Metric :=
  let overview := getDataOverview st
  let base : List Metric :=
    [{ label := "Total Records", value := .num st.data.length,
       change := none, trend := none, format := some .number },
     { label := "Data Columns", value := .num st.columns.length,
       change := none, trend := none, format := some .number }]
  let revenueColumns := overview.columns.filter (fun col => isRevenueColumn col)
  let withRevenue := base ++
    (match revenueColumns with
     | [] => []
     | revenueCol :: _ =>
       let values := (st.data.map (fun row => jsParseFloat (rowGet row revenueCol.name))).reduceOption
       let totalRevenue := values.sum
       let avgRevenue : ℚ := if values.length > 0 then totalRevenue / values.length else 0
       [{ label := "Total Revenue", value := .num totalRevenue,
          change := none, trend := some .up, format := some .currency },
        { label := "Average Order Value", value := .num avgRevenue,
          change := none, trend := none, format := some .currency }])
  withRevenue ++
    (if overview.missingValues > 0 then
      let cells : ℚ := (st.data.length : ℚ) * (st.columns.length : ℚ)
      [{ label := "Data Completeness",
         value := .num (round ((cells - overview.missingValues) / cells * 100) : ℤ),
         change := none,
         trend := some (if (overview.missingValues : ℚ) > (st.data.length : ℚ) * (1 / 10)
                        then .down else .neutral),
         format := some .percentage }]
     else [])

/-! ## Charts (`generateCharts`, `createHistogramBins`) -/

inductive ChartType
  | bar
  | line
  | pie
  | doughnut
  | scatter
deriving DecidableEq, Repr

/-- A chart's payload: the label axis and the aligned numeric series.
Presentation-only constants of the source (colors, fill, tension, dataset
legend text) are not part of the model. -/
structure ChartData where
  type : ChartType
  title : String
  labels : List String
  data : List ℚ
deriving DecidableEq, Repr

/-- Model of `Math.min(...values)`; `none` models the `+Infinity` of an empty spread. -/
def jsMinList : List ℚ → Option ℚ
  | [] => none
  | h :: t => some (t.foldl min h)

/-- Model of `Math.max(...values)`; `none` models the `-Infinity` of an empty spread. -/
def jsMaxList : List ℚ → Option ℚ
  | [] => none
  | h :: t => some (t.foldl max h)

/-- Model of `Math.min(Math.floor((value - min) / binSize), binCount - 1)`.
When `binSize = 0` the JS quotient is `NaN`, which indexes a non-element
property of the bins array, so no bin is incremented: modelled as `none`.
A negative index likewise touches no array element. -/
def jsBinIndex (value mn binSize : ℚ) (binCount : ℕ) : Option ℕ :=
  if binSize = 0 then none
  else
    let j : ℤ := min ⌊(value - mn) / binSize⌋ ((binCount : ℤ) - 1)
    if j < 0 then none else some j.toNat

/-- Model of `bins[i]++` for an in-range index; out-of-range / `NaN` indices leave the
dense array elements unchanged. -/
def binsIncr (bins : List ℕ) : Option ℕ → List ℕ
  | none => bins
  | some i => bins.set i ((bins.getD i 0) + 1)

/-- Model of `DataAnalyzer.createHistogramBins`.  The empty-input case mirrors
`Math.min()` / `Math.max()` of an empty spread: the loop body never runs and
the labels are degenerate. -/
def createHistogramBins (values : List ℚ) (binCount : ℕ) : List String × List ℕ :=
  match jsMinList values, jsMaxList values with
  | some mn, some mx =>
    let binSize : ℚ := (mx - mn) / binCount
    let labels := (List.range binCount).map (fun i =>
      let a : ℤ := round (mn + i * binSize)
      let b : ℤ := round (mn + (i + 1) * binSize)
      s!"{a}-{b}")
    let bins := values.foldl
      (fun bins v => binsIncr bins (jsBinIndex v mn binSize binCount))
      (List.replicate binCount 0)
    (labels, bins)
  | _, _ => (List.replicate binCount "NaN-NaN", List.replicate binCount 0)

/-- Model of `categoryCounts[value] = (categoryCounts[value] || 0) + 1`. -/
def objCount (obj : List (String × ℕ)) (k : String) : List (String × ℕ) :=
  if k ∈ obj.map Prod.fst then
    obj.map (fun p => if p.1 = k then (p.1, p.2 + 1) else p)
  else obj ++ [(k, 1)]

/-- Model of `timeData[date] = (timeData[date] || 0) + revenue`. -/
def objAdd (obj : List (String × ℚ)) (k : String) (v : ℚ) : List (String × ℚ) :=
  if k ∈ obj.map Prod.fst then
    obj.map (fun p => if p.1 = k then (p.1, p.2 + v) else p)
  else obj ++ [(k, v)]

/-- Read of an accumulated sum (`timeData[date]`). -/
def objGetQ (obj : List (String × ℚ)) (k : String) : ℚ :=
  ((obj.find? (fun p => p.1 = k)).map Prod.snd).getD 0

/-- Model of `.sort(([,a],[,b]) => b - a)`: stable descending sort on counts (modern
JS array sort is stable, so ties keep first-encountered order). -/
def sortByCountDesc (l : List (String × ℕ)) : List (String × ℕ) :=
  l.insertionSort (fun p q => q.2 ≤ p.2)

/-- JS default string comparison: lexicographic on code units. -/
def charsLt : List Char → List Char → Bool
  | [], [] => false
  | [], _ :: _ => true
  | _ :: _, [] => false
  | a :: as, b :: bs => if a = b then charsLt as bs else decide (a < b)

/-- Model of `Object.keys(timeData).sort()`: default lexicographic string sort
(stable, though the keys here are distinct). -/
def sortStrings (l : List String) : List String :=
  l.insertionSort (fun a b => !charsLt b.data a.data)

/-- The `this.data.forEach` loop of the trend chart.  The date cell is
normalized **before** the revenue guard; a cell that fails the date parse
makes `toISOString()` throw `RangeError: Invalid time value`. -/
def buildTimeData (st : AnalyzerState) (dateColName revenueColName : String) :
    Except JsError (List (String × ℚ)) :=
  st.data.foldlM
    (fun timeData row =>
      match jsDateParse (rowGet row dateColName) with
      | none => .error .invalidTime
      | some ymd =>
        let date := isoDayKey ymd
        match jsParseFloat (rowGet row revenueColName) with
        | none => .ok timeData
        | some revenue => .ok (objAdd timeData date revenue))
    []

/-- Model of `DataAnalyzer.generateCharts`. -/
def generateCharts (st : AnalyzerState) : Except JsError (List ChartData) :=
  let overview := getDataOverview st
  let revenueColumns := overview.columns.filter (fun col => isRevenueColumn col)
  let charts1 : List ChartData :=
    match revenueColumns with
    | [] => []
    | revenueCol :: _ =>
      let values := (st.data.map (fun row => jsParseFloat (rowGet row revenueCol.name))).reduceOption
      let bins := createHistogramBins values 10
      [{ type := .bar, title := revenueCol.name ++ " Distribution",
         labels := bins.1, data := bins.2.map (fun n => (n : ℚ)) }]
  let categoryColumns := overview.columns.filter
    (fun col => col.type = .categorical ∧ col.uniqueValues < 20)
  let charts2 : List ChartData := charts1 ++
    (match categoryColumns with
     | [] => []
     | categoryCol :: _ =>
       let categoryCounts := st.data.foldl
         (fun counts row => objCount counts (rowGet row categoryCol.name)) []
       let sortedCategories := (sortByCountDesc categoryCounts).take 10
       [{ type := .doughnut, title := categoryCol.name ++ " Distribution",
          labels := sortedCategories.map Prod.fst,
          data := sortedCategories.map (fun p => (p.2 : ℚ)) }])
  let dateColumns := overview.columns.filter
    (fun col => col.businessType = some .date ∨ col.type = .datetime)
  match dateColumns, revenueColumns with
  | dateCol :: _, revenueCol :: _ =>
    match buildTimeData st dateCol.name revenueCol.name with
    | .error e => .error e
    | .ok timeData =>
      let sortedDates := sortStrings (timeData.map Prod.fst)
      .ok (charts2 ++
        [{ type := .line, title := "Revenue Trend Over Time",
           labels := sortedDates,
           data := sortedDates.map (fun date => objGetQ timeData date) }])
  | _, _ => .ok charts2

/-! ## Insights and recommendations -/

/-- Model of `DataAnalyzer.generateInsights`. -/
def generateInsights (st : AnalyzerState) : List String :=
  let overview := getDataOverview st
  let recs := jsToLocaleString (st.data.length : ℚ)
  let colCount := st.columns.length
  let insights1 := [s!"Dataset contains {recs} records across {colCount} columns"]
  let insights2 := insights1 ++
    (if overview.missingValues > 0 then
      let cells : ℚ := (st.data.length : ℚ) * (st.columns.length : ℚ)
      let completeness : ℤ := round ((cells - overview.missingValues) / cells * 100)
      let missing := overview.missingValues
      [s!"Data completeness is {completeness}% with {missing} missing values"]
     else [])
  let insights3 := insights2 ++
    (if overview.duplicateRows > 0 then
      let dups := overview.duplicateRows
      [s!"Found {dups} duplicate records that may need attention"]
     else [])
  let insights4 := insights3 ++
    (match overview.columns.filter (fun col => col.businessType = some .revenue) with
     | [] => []
     | revenueCol :: _ =>
       let values := (st.data.map (fun row => jsParseFloat (rowGet row revenueCol.name))).reduceOption
       let total := jsToLocaleString values.sum
       [s!"Total revenue across all records is ${total}"])
  insights4 ++
    (match overview.columns.filter (fun col => col.businessType = some .customer) with
     | [] => []
     | customerCol :: _ =>
       let uniqueCustomers :=
         jsToLocaleString ((st.data.map (fun row => rowGet row customerCol.name)).dedup.length : ℚ)
       [s!"Dataset includes {uniqueCustomers} unique customers"])

/-- Model of `DataAnalyzer.generateRecommendations`. -/
def generateRecommendations (st : AnalyzerState) : List String :=
  let overview := getDataOverview st
  let recs1 :=
    if (overview.missingValues : ℚ) > (st.data.length : ℚ) * (5 / 100) then
      ["Consider data cleaning to address missing values before analysis"]
    else []
  let recs2 := recs1 ++
    (if overview.duplicateRows > 0 then
      ["Remove duplicate records to improve data quality"]
     else [])
  let revenueColumns := overview.columns.filter (fun col => col.businessType = some .revenue)
  let dateColumns := overview.columns.filter (fun col => col.businessType = some .date)
  let recs3 := recs2 ++
    (if revenueColumns.length > 0 ∧ dateColumns.length > 0 then
      ["Analyze revenue trends over time to identify seasonal patterns"]
     else [])
  let categoryColumns := overview.columns.filter
    (fun col => col.type = .categorical ∧ col.uniqueValues < 20)
  let recs4 := recs3 ++
    (if categoryColumns.length > 0 then
      ["Segment analysis by categories could reveal growth opportunities"]
     else [])
  recs4 ++
    (if revenueColumns.length > 0 then
      ["Focus on high-value transactions to maximize revenue impact"]
     else [])

/-! ## The orchestrator (`performCompleteAnalysis`) -/

structure AnalysisResult where
  overview : DataOverview
  metrics : List Metric
  charts : List ChartData
  insights : List String
  recommendations : List String
deriving DecidableEq, Repr

/-- Model of `new DataAnalyzer(rawText)` followed by `performCompleteAnalysis()`:
the one public operation of the engine. -/
def analyze (rawText : String) : Except JsError AnalysisResult :=
  match parseCSV rawText with
  | .error e => .error e
  | .ok st =>
    match generateCharts st with
    | .error e => .error e
    | .ok charts =>
      .ok { overview := getDataOverview st
            metrics := generateMetrics st
            charts := charts
            insights := generateInsights st
            recommendations := generateRecommendations st }

/-- Model of `performCompleteAnalysis` with its simulated processing delay made
explicit: `await new Promise(resolve => setTimeout(resolve, 2000))` only
suspends; the awaited clock value is the sole ambient input of the method
and is never read into the result. -/
def performCompleteAnalysis (delayMs : ℕ) (rawText : String) :
    Except JsError AnalysisResult :=
  let _wait := delayMs
  analyze rawText

/-! ## Shared example inputs -/

/-- The spec's worked example input. -/
def exampleInput : String := "amount,date\n10,2024-01-01\n20,2024-01-01\n30,2024-01-02"

/-! ## Claims

Batteries marks the `Rat` field operations `@[irreducible]`; evaluation
proofs below need them to unfold. -/

attribute [local semireducible] Rat.mul Rat.inv Rat.add Rat.sub Rat.ofScientific

deriving instance DecidableEq for Except

/-- Claim C1 (code_bug evidence): the claim says `analyze` fails exactly on
inputs with fewer than two lines and never otherwise, but an unparseable
date cell in a date-role column (here `notadate`, with a revenue column
present) makes the trend-chart builder call `toISOString()` on an invalid
`Date`, which throws `RangeError: Invalid time value`.  A header-only input
does raise the malformed-input error, and the two-line input of the worked
example succeeds. -/
theorem C1_analyze_error_behaviour :
    analyze "header-only" = .error .malformedInput ∧
    (analyze exampleInput).isOk = true ∧
    analyze "amount,date\n10,notadate" = .error .invalidTime := by
  refine ⟨rfl, by decide, by decide⟩

/-- Claim C2 (code_bug evidence): on the worked example the revenue-trend
line chart has exactly the two claimed points (`2024-01-01 → 30`,
`2024-01-02 → 30`), but a row whose date cell fails to parse is not skipped
silently: it aborts the whole analysis with the invalid-time error. -/
theorem C2_revenue_trend :
    (analyze exampleInput).map
        (fun r => r.charts.filter (fun c => c.type = ChartType.line)) =
      .ok [{ type := .line, title := "Revenue Trend Over Time",
             labels := ["2024-01-01", "2024-01-02"], data := [30, 30] }] ∧
    analyze "amount,date\n10,x" = .error .invalidTime := by
  exact ⟨by decide, by decide⟩

/-- Claim C3 counterexample: a column in which exactly 80% of the non-empty
values are numeric (4 of 5 here) is **not** classified numeric — the source
uses a strict `>` against `0.8 * count`, so the column falls through to
`categorical`. -/
theorem C3_counterexample :
    ((["1.5", "2.5", "3.5", "4.5", "abc"].filter (fun v => v ≠ "")).filter
        (fun v => isNumericCell v)).length = 4 ∧
    (["1.5", "2.5", "3.5", "4.5", "abc"].filter (fun v => v ≠ "")).length = 5 ∧
    (detectColumnType "score" ["1.5", "2.5", "3.5", "4.5", "abc"]).type =
      ColType.categorical := by
  refine ⟨by decide, by decide, by decide⟩

/-- Claim C4 counterexample: a column classified `datetime` (not
`categorical`) still receives business role `category` when its unique-value
count is below half the non-empty count, because the source's guard is
`!isNumeric`, not "categorical". -/
theorem C4_counterexample :
    (detectColumnType "when" ["2024-01-01", "2024-01-01", "2024-01-01"]).type =
      ColType.datetime ∧
    (detectColumnType "when" ["2024-01-01", "2024-01-01", "2024-01-01"]).businessType =
      some BusinessType.category := by
  exact ⟨by decide, by decide⟩

/-- Claim C5 counterexample: for the input `amount\n5\n5` two values parse
successfully, yet the revenue-distribution bar chart's ten bin counts sum to
0, not 2 — with `min = max` the bin width is zero and the JS bin index is
`NaN`, so no dense array element is ever incremented. -/
theorem C5_counterexample :
    (analyze "amount\n5\n5").map
        (fun r => r.charts.map (fun c => (c.type, c.data.sum))) =
      .ok [(ChartType.bar, 0)] ∧
    (parseCSV "amount\n5\n5").map (fun st =>
        ((st.data.map (fun row => jsParseFloat (rowGet row "amount"))).reduceOption).length) =
      .ok 2 := by
  exact ⟨by decide, by decide⟩

/-! ### Helper lemmas about row objects -/

/-- Assigning a fresh key appends it. -/
theorem objSet_fresh (obj : List (String × String)) (k v : String)
    (h : k ∉ obj.map Prod.fst) : objSet obj k v = obj ++ [(k, v)] := by
  simp only [objSet, if_neg h]

/-- Key membership after a property assignment. -/
theorem mem_keys_objSet (obj : List (String × String)) (k v k' : String) :
    k' ∈ (objSet obj k v).map Prod.fst ↔ k' ∈ obj.map Prod.fst ∨ k' = k := by
  by_cases hmem : k ∈ obj.map Prod.fst
  · have hkeys : (objSet obj k v).map Prod.fst = obj.map Prod.fst := by
      simp only [objSet, if_pos hmem, List.map_map]
      apply List.map_congr_left
      intro p _
      by_cases hp : p.1 = k
      · simp [Function.comp, hp]
      · simp [Function.comp, hp]
    rw [hkeys]
    constructor
    · exact Or.inl
    · rintro (h | rfl)
      · exact h
      · exact hmem
  · rw [objSet_fresh obj k v hmem]
    simp

/-- The keys of a built row are exactly the seen column names. -/
theorem mem_keys_buildRowAux (vals : List String) (cols : List String) :
    ∀ (row : List (String × String)) (i : ℕ) (k : String),
      k ∈ (buildRowAux vals row i cols).map Prod.fst ↔
        k ∈ row.map Prod.fst ∨ k ∈ cols := by
  induction cols with
  | nil => intro row i k; simp [buildRowAux]
  | cons c cs ih =>
    intro row i k
    rw [buildRowAux, ih, mem_keys_objSet]
    simp [or_assoc]

/-- Values at positions the header does not reach are never read. -/
theorem buildRowAux_take (vals : List String) (cols : List String) :
    ∀ (row : List (String × String)) (i n : ℕ), cols.length + i ≤ n →
      buildRowAux (vals.take n) row i cols = buildRowAux vals row i cols := by
  induction cols with
  | nil => intro row i n _; rfl
  | cons c cs ih =>
    intro row i n hn
    have hi : i < n := by simp at hn; omega
    have hget : (vals.take n).getD i "" = vals.getD i "" := by
      simp [List.getD_eq_getElem?_getD, List.getElem?_take, hi]
    rw [buildRowAux, buildRowAux, hget]
    exact ih _ (i + 1) n (by simp at hn ⊢; omega)

/-- Claim C10: a data line with more fields than the header has columns
contributes nothing beyond the header length — the built row object is
unchanged when the field list is truncated to the header length, and its
keys are exactly the header's column names. -/
theorem C10_extra_fields_discarded (cols vals : List String) :
    buildRow cols vals = buildRow cols (vals.take cols.length) ∧
    (∀ k, k ∈ (buildRow cols vals).map Prod.fst ↔ k ∈ cols) := by
  constructor
  · exact (buildRowAux_take vals cols [] 0 cols.length (by omega)).symm
  · intro k
    have h := mem_keys_buildRowAux vals cols [] 0 k
    simpa [buildRow] using h

/-- Witness for C10 at a concrete header and an over-long row. -/
theorem C10_witness :
    buildRow ["amount"] ["10", "extra"] = buildRow ["amount"] (["10", "extra"].take 1) ∧
    (∀ k, k ∈ (buildRow ["amount"] ["10", "extra"]).map Prod.fst ↔ k ∈ ["amount"]) :=
  C10_extra_fields_discarded ["amount"] ["10", "extra"]

/-- Claim C9: the analysis is deterministic — the simulated-delay clock is
the only ambient input of `performCompleteAnalysis`, and two runs on
character-identical text agree on every field of the result. -/
theorem C9_deterministic (d1 d2 : ℕ) (rawText : String) (r1 r2 : AnalysisResult)
    (h1 : performCompleteAnalysis d1 rawText = .ok r1)
    (h2 : performCompleteAnalysis d2 rawText = .ok r2) :
    r1.overview = r2.overview ∧ r1.metrics = r2.metrics ∧ r1.charts = r2.charts ∧
    r1.insights = r2.insights ∧ r1.recommendations = r2.recommendations := by
  have e : performCompleteAnalysis d1 rawText = performCompleteAnalysis d2 rawText := rfl
  have hok : (Except.ok r1 : Except JsError AnalysisResult) = .ok r2 :=
    h1.symm.trans (e.trans h2)
  cases hok
  exact ⟨rfl, rfl, rfl, rfl, rfl⟩

/-- The worked example's analysis result (used by witnesses). -/
def exampleAnalysis : AnalysisResult :=
  match analyze exampleInput with
  | .ok r => r
  | .error _ => ⟨⟨0, 0, [], 0, 0, ""⟩, [], [], [], []⟩

/-- Witness for C9 at the worked example. -/
theorem C9_witness :
    exampleAnalysis.overview = exampleAnalysis.overview ∧
    exampleAnalysis.metrics = exampleAnalysis.metrics ∧
    exampleAnalysis.charts = exampleAnalysis.charts ∧
    exampleAnalysis.insights = exampleAnalysis.insights ∧
    exampleAnalysis.recommendations = exampleAnalysis.recommendations :=
  C9_deterministic 0 1 exampleInput exampleAnalysis exampleAnalysis
    (by decide) (by decide)

/-! ### Overview invariants -/

/-- Model of the reduction `columns.reduce((sum, col) => sum + col.nullCount, 0)`. -/
theorem foldl_add_nullCount (l : List ColumnInfo) (a : ℕ) :
    l.foldl (fun sum col => sum + col.nullCount) a =
      a + (l.map (fun c => c.nullCount)).sum := by
  induction l generalizing a with
  | nil => simp
  | cons c cs ih => simp [ih, Nat.add_assoc]

/-- Claim C6: for every successfully parsed table, `totalMissingValues` is
the sum of the per-column null counts, and the duplicate-row count is at
most `rowCount - 1` (it is a natural number, hence non-negative). -/
theorem C6_overview_invariants (rawText : String) (st : AnalyzerState)
    (h : parseCSV rawText = .ok st) :
    (getDataOverview st).missingValues =
      ((getDataOverview st).columns.map (fun c => c.nullCount)).sum ∧
    (getDataOverview st).duplicateRows + 1 ≤ (getDataOverview st).totalRows := by
  have hdata : st.data ≠ [] := by
    simp only [parseCSV] at h
    split at h
    · exact absurd h (by simp)
    · rename_i hlen
      cases h
      apply List.ne_nil_of_length_pos
      simp only [List.length_map, List.length_tail]
      omega
  refine ⟨?_, ?_⟩
  · simp only [getDataOverview]
    rw [foldl_add_nullCount]
    simp
  · have h1 : 1 ≤ st.data.dedup.length := by
      match hd : st.data with
      | [] => exact absurd hd hdata
      | r :: rest =>
        have hr : r ∈ (r :: rest).dedup := List.mem_dedup.mpr (by simp)
        exact List.length_pos_of_mem hr
    have h2 : st.data.dedup.length ≤ st.data.length :=
      (List.dedup_sublist _).length_le
    simp only [getDataOverview]
    omega

/-- The worked example's parsed analyzer state (used by witnesses). -/
def exampleState : AnalyzerState :=
  { columns := ["amount", "date"]
    data := [[("amount", "10"), ("date", "2024-01-01")],
             [("amount", "20"), ("date", "2024-01-01")],
             [("amount", "30"), ("date", "2024-01-02")]]
    rawData := exampleInput }

/-- Witness for C6 at the worked example. -/
theorem C6_witness :
    (getDataOverview exampleState).missingValues =
      ((getDataOverview exampleState).columns.map (fun c => c.nullCount)).sum ∧
    (getDataOverview exampleState).duplicateRows + 1 ≤
      (getDataOverview exampleState).totalRows :=
  C6_overview_invariants exampleInput exampleState (by decide)

/-! ### Revenue metrics -/

/-- The guarded average of the source coincides with the rational quotient
(for an empty list both sides are zero). -/
theorem guarded_avg_eq (vals : List ℚ) :
    (if vals.length > 0 then vals.sum / (vals.length : ℚ) else 0) =
      vals.sum / (vals.length : ℚ) := by
  by_cases hl : vals.length > 0
  · rw [if_pos hl]
  · rw [if_neg hl]
    have hnil : vals = [] := List.length_eq_zero.mp (by omega)
    simp [hnil]

/-- Claim C7: when a revenue column exists, the metrics contain a
"Total Revenue" currency metric (trend up) whose value is the sum of the
first such column's successfully parsed values, and an "Average Order
Value" currency metric equal to that sum divided by the parsed-value count;
unparseable cells contribute to neither. -/
theorem C7_revenue_metrics (st : AnalyzerState) (col : ColumnInfo)
    (rest : List ColumnInfo)
    (h : (getDataOverview st).columns.filter (fun c => isRevenueColumn c) = col :: rest) :
    ({ label := "Total Revenue",
       value := .num ((st.data.map (fun row => jsParseFloat (rowGet row col.name))).reduceOption.sum),
       change := none, trend := some .up, format := some .currency } : Metric)
        ∈ generateMetrics st ∧
    ({ label := "Average Order Value",
       value := .num ((st.data.map (fun row => jsParseFloat (rowGet row col.name))).reduceOption.sum /
         ((st.data.map (fun row => jsParseFloat (rowGet row col.name))).reduceOption.length : ℚ)),
       change := none, trend := none, format := some .currency } : Metric)
        ∈ generateMetrics st := by
  simp only [generateMetrics]
  rw [h]
  dsimp only
  rw [guarded_avg_eq]
  constructor
  · simp [List.mem_append]
  · simp [List.mem_append]

/-- Witness for C7 at the worked example: Total Revenue is 60 and the
average order value is 20. -/
theorem C7_witness :
    ({ label := "Total Revenue", value := .num 60, change := none,
       trend := some .up, format := some .currency } : Metric)
        ∈ generateMetrics exampleState ∧
    ({ label := "Average Order Value", value := .num 20, change := none,
       trend := none, format := some .currency } : Metric)
        ∈ generateMetrics exampleState := by
  have h := C7_revenue_metrics exampleState
    { name := "amount", type := .numeric, uniqueValues := 3, nullCount := 0,
      isBusinessRelevant := true, businessType := some .revenue } [] (by decide)
  refine ⟨?_, ?_⟩
  · have e : ((exampleState.data.map
        (fun row => jsParseFloat (rowGet row "amount"))).reduceOption.sum) = 60 := by decide
    simpa [e] using h.1
  · have e : ((exampleState.data.map
        (fun row => jsParseFloat (rowGet row "amount"))).reduceOption.sum /
          ((exampleState.data.map
            (fun row => jsParseFloat (rowGet row "amount"))).reduceOption.length : ℚ)) = 20 := by
      decide
    simpa [e] using h.2

/-! ### Tokenizer lemmas -/

/-- Inside quote mode, every character up to the closing quote — commas
included — is accumulated into the current field. -/
theorem parseCSVLineAux_quoted (s : List Char) :
    ∀ (res : List String) (cur : List Char) (rest : List Char), '"' ∉ s →
      parseCSVLineAux res cur true (s ++ ('"' :: rest)) =
        parseCSVLineAux res (cur ++ s) false rest := by
  induction s with
  | nil =>
    intro res cur rest _
    simp [parseCSVLineAux]
  | cons c cs ih =>
    intro res cur rest hq
    have hc : ¬ (c = '"') := fun he => hq (by simp [he])
    have hcs : '"' ∉ cs := fun hm => hq (by simp [hm])
    rw [List.cons_append, parseCSVLineAux]
    rw [if_neg hc, if_neg (by simp)]
    rw [ih res (cur ++ [c]) rest hcs]
    simp

/-- The reference association between a row's keys and the field values,
position by position. -/
def rowPairs (vals : List String) : ℕ → List String → List (String × String)
  | _, [] => []
  | i, c :: cs => (c, vals.getD i "") :: rowPairs vals (i + 1) cs

/-- With a duplicate-free header, the row-building loop just zips column
names with (padded) field values. -/
theorem buildRowAux_eq_pairs (vals : List String) (cols : List String) :
    ∀ (row : List (String × String)) (i : ℕ), cols.Nodup →
      (∀ c ∈ cols, c ∉ row.map Prod.fst) →
      buildRowAux vals row i cols = row ++ rowPairs vals i cols := by
  induction cols with
  | nil =>
    intro row i _ _
    simp [buildRowAux, rowPairs]
  | cons c cs ih =>
    intro row i hnd hfresh
    rw [buildRowAux, objSet_fresh row c _ (hfresh c (by simp))]
    rw [ih _ (i + 1) (List.nodup_cons.mp hnd).2 ?_]
    · simp [rowPairs]
    · intro c' hc'
      simp only [List.map_append, List.mem_append]
      rintro (hin | hone)
      · exact hfresh c' (by simp [hc']) hin
      · have : c' = c := by simpa using hone
        exact (List.nodup_cons.mp hnd).1 (this ▸ hc')

/-- Reading a (duplicate-free) reference row at the j-th column name gives
the j-th field value, with the empty string past the end. -/
theorem rowGet_rowPairs (vals : List String) (cols : List String) :
    ∀ (i j : ℕ) (hj : j < cols.length), cols.Nodup →
      rowGet (rowPairs vals i cols) (cols.get ⟨j, hj⟩) = vals.getD (i + j) "" := by
  induction cols with
  | nil =>
    intro i j hj _
    simp at hj
  | cons c cs ih =>
    intro i j hj hnd
    cases j with
    | zero =>
      simp [rowPairs, rowGet]
    | succ j' =>
      have hj' : j' < cs.length := by simpa using hj
      have hget : (c :: cs).get ⟨j' + 1, hj⟩ = cs.get ⟨j', hj'⟩ := rfl
      have hne : ¬ (c = cs.get ⟨j', hj'⟩) := by
        intro he
        exact (List.nodup_cons.mp hnd).1 (he ▸ List.get_mem cs j' hj')
      rw [hget, rowPairs, rowGet]
      rw [List.find?_cons_of_neg _ (by simpa using hne)]
      have := ih (i + 1) j' hj' (List.nodup_cons.mp hnd).2
      rw [rowGet] at this
      rw [this]
      congr 1
      omega

/-- Claim C8: the quote-toggle rule — a quote-free field wrapped in double
quotes is emitted as a single trimmed field no matter what commas it
contains; with a duplicate-free header each row maps the i-th column name
to the i-th field value, empty-string padded when the row is shorter; and
the concrete field `"New York, NY"` parses as one field. -/
theorem C8_tokenizer_quoting_padding (s : List Char) (cols vals : List String)
    (i : ℕ) (hq : '"' ∉ s) (hnd : cols.Nodup) (hi : i < cols.length) :
    parseCSVLine (String.mk ('"' :: (s ++ ['"']))) = [cleanFieldChars s] ∧
    rowGet (buildRow cols vals) (cols.get ⟨i, hi⟩) = vals.getD i "" ∧
    parseCSVLine "\"New York, NY\"" = ["New York, NY"] := by
  refine ⟨?_, ?_, by decide⟩
  · show parseCSVLineAux [] [] false ('"' :: (s ++ ['"'])) = [cleanFieldChars s]
    rw [parseCSVLineAux, if_pos rfl]
    simp only [Bool.not_false]
    rw [parseCSVLineAux_quoted s [] [] [] hq]
    simp [parseCSVLineAux]
  · have hb : buildRow cols vals = rowPairs vals 0 cols := by
      have := buildRowAux_eq_pairs vals cols [] 0 hnd (by simp)
      simpa [buildRow] using this
    rw [hb]
    have := rowGet_rowPairs vals cols 0 i hi hnd
    simpa using this

/-- Witness for C8: the quoted example field and padding of a two-column
header against a one-field row. -/
theorem C8_witness :
    parseCSVLine (String.mk ('"' :: ("New York, NY".data ++ ['"']))) =
      [cleanFieldChars "New York, NY".data] ∧
    rowGet (buildRow ["city", "state"] ["albany"]) "state" = "" := by
  have h := C8_tokenizer_quoting_padding "New York, NY".data ["city", "state"]
    ["albany"] 1 (by decide) (by decide) (by decide)
  exact ⟨h.1, h.2.1⟩

/-! ### Classification thresholds -/

/-- Fraction of a column's non-empty values satisfying a predicate — the
spec's "percentage of non-empty values", as an exact ratio. -/
def fractionOf (values : List String) (p : String → Bool) : ℚ :=
  (((values.filter (fun v => v ≠ "")).filter (fun v => p v)).length : ℚ) /
    ((values.filter (fun v => v ≠ "")).length : ℚ)

/-- The source's count comparison against `count * 0.8` is the strict
80%-ratio test (both sides are false for an empty column). -/
theorem strict_ratio_iff (c n : ℕ) (h : c ≤ n) :
    ((c : ℚ) > (n : ℚ) * (8 / 10)) ↔ ((c : ℚ) / (n : ℚ) > 4 / 5) := by
  rcases Nat.eq_zero_or_pos n with hn | hn
  · have hc : c = 0 := by omega
    subst hn hc
    norm_num
  · have hnq : (0 : ℚ) < (n : ℚ) := by exact_mod_cast hn
    rw [gt_iff_lt, gt_iff_lt, lt_div_iff₀ hnq]
    constructor
    · intro hlt; nlinarith
    · intro hlt; nlinarith

/-- The source's `unique < count * 0.5` test is the "below half" test. -/
theorem half_ratio_iff (u n : ℕ) :
    ((u : ℚ) < (n : ℚ) * (5 / 10)) ↔ 2 * u < n := by
  constructor
  · intro hlt
    have : (2 * u : ℚ) < (n : ℚ) := by nlinarith
    exact_mod_cast this
  · intro hlt
    have : (2 * u : ℚ) < (n : ℚ) := by exact_mod_cast hlt
    nlinarith

/-- Claim C3 (amended): a column is `numeric` iff **strictly more** than 80%
of its non-empty values pass the numeric test; otherwise `datetime` iff
strictly more than 80% parse as dates; otherwise `categorical`.  (The claim
as frozen says "at least 80%", which fails at exactly 80%.) -/
theorem C3_amended_classification (columnName : String) (values : List String) :
    ((detectColumnType columnName values).type = ColType.numeric ↔
      fractionOf values (fun v => isNumericCell v) > 4 / 5) ∧
    ((detectColumnType columnName values).type = ColType.datetime ↔
      ¬ fractionOf values (fun v => isNumericCell v) > 4 / 5 ∧
        fractionOf values (fun v => (jsDateParse v).isSome) > 4 / 5) ∧
    ((detectColumnType columnName values).type = ColType.categorical ↔
      ¬ fractionOf values (fun v => isNumericCell v) > 4 / 5 ∧
        ¬ fractionOf values (fun v => (jsDateParse v).isSome) > 4 / 5) := by
  have hnum := strict_ratio_iff
    ((values.filter (fun v => v ≠ "")).filter (fun v => isNumericCell v)).length
    (values.filter (fun v => v ≠ "")).length (List.length_filter_le _ _)
  have hdt := strict_ratio_iff
    ((values.filter (fun v => v ≠ "")).filter (fun v => (jsDateParse v).isSome)).length
    (values.filter (fun v => v ≠ "")).length (List.length_filter_le _ _)
  simp only [detectColumnType, fractionOf]
  split_ifs with h1 h2
  · simp only [decide_eq_true_eq] at h1
    exact ⟨iff_of_true rfl (hnum.mp h1),
      iff_of_false (by decide) (fun hcon => hcon.1 (hnum.mp h1)),
      iff_of_false (by decide) (fun hcon => hcon.1 (hnum.mp h1))⟩
  · simp only [decide_eq_true_eq] at h1 h2
    exact ⟨iff_of_false (by decide) (fun hc => h1 (hnum.mpr hc)),
      iff_of_true rfl ⟨fun hc => h1 (hnum.mpr hc), hdt.mp h2⟩,
      iff_of_false (by decide) (fun hcon => hcon.2 (hdt.mp h2))⟩
  · simp only [decide_eq_true_eq] at h1 h2
    exact ⟨iff_of_false (by decide) (fun hc => h1 (hnum.mpr hc)),
      iff_of_false (by decide) (fun hcon => h2 (hdt.mpr hcon.2)),
      iff_of_true rfl ⟨fun hc => h1 (hnum.mpr hc), fun hc => h2 (hdt.mpr hc)⟩⟩

/-- Witness for the amended C3 at a concrete 4-of-5 numeric column. -/
theorem C3_witness :
    (detectColumnType "score" ["1.5", "2.5", "3.5", "4.5", "abc"]).type =
        ColType.categorical ↔
      ¬ fractionOf ["1.5", "2.5", "3.5", "4.5", "abc"] (fun v => isNumericCell v) > 4 / 5 ∧
        ¬ fractionOf ["1.5", "2.5", "3.5", "4.5", "abc"]
            (fun v => (jsDateParse v).isSome) > 4 / 5 :=
  (C3_amended_classification "score" ["1.5", "2.5", "3.5", "4.5", "abc"]).2.2

/-- The role cascade over abstract name-match and type-test atoms: the
source's `!isNumeric` guard coincides with "the inferred type is not
numeric", and its `count * 0.5` comparison with "below half". -/
theorem cascade_eq (b1 b2 b3 bN bDT : Bool) (u n : ℕ) :
    (if b1 = true then some BusinessType.revenue
     else if b2 = true then some BusinessType.customer
     else if b3 = true then some BusinessType.date
     else if (!bN) = true ∧ (u : ℚ) < (n : ℚ) * (5 / 10) then some BusinessType.category
     else if bN = true ∧ (!b1) = true then some BusinessType.quantity
     else none) =
    (if b1 = true then some BusinessType.revenue
     else if b2 = true then some BusinessType.customer
     else if b3 = true then some BusinessType.date
     else if (if bN = true then ColType.numeric
              else if bDT = true then ColType.datetime
              else ColType.categorical) ≠ ColType.numeric ∧ 2 * u < n then
       some BusinessType.category
     else if (if bN = true then ColType.numeric
              else if bDT = true then ColType.datetime
              else ColType.categorical) = ColType.numeric ∧ ¬ b1 = true then
       some BusinessType.quantity
     else none) := by
  cases b1 <;> cases b2 <;> cases b3 <;> cases bN <;> cases bDT <;>
    simp [half_ratio_iff]

/-- Claim C4 (amended): business roles are assigned by the name-first
priority cascade, but the `category` branch fires for every **non-numeric**
column — datetime columns included, not only categorical ones — whose
unique-value count is below half the non-empty count; and a column named
`revenue` always gets role `revenue`. -/
theorem C4_amended_roles (columnName : String) (values : List String) :
    ((detectColumnType columnName values).businessType =
      (if nameMatches revenueNames (jsToLower columnName) then some BusinessType.revenue
       else if nameMatches customerNames (jsToLower columnName) then some BusinessType.customer
       else if nameMatches dateNames (jsToLower columnName) then some BusinessType.date
       else if (detectColumnType columnName values).type ≠ ColType.numeric ∧
           2 * (detectColumnType columnName values).uniqueValues <
             (values.filter (fun v => v ≠ "")).length then some BusinessType.category
       else if (detectColumnType columnName values).type = ColType.numeric ∧
           ¬ nameMatches revenueNames (jsToLower columnName) = true then
         some BusinessType.quantity
       else none)) ∧
    (∀ vs : List String, (detectColumnType "revenue" vs).businessType =
      some BusinessType.revenue) := by
  constructor
  · simp only [detectColumnType]
    exact cascade_eq _ _ _ _ _ _ _
  · intro vs
    have hrev : nameMatches revenueNames (jsToLower "revenue") = true := by decide
    simp [detectColumnType, hrev]

/-- Witness for the amended C4 at the datetime column of the
counterexample. -/
theorem C4_witness :
    (detectColumnType "when" ["2024-01-01", "2024-01-01", "2024-01-01"]).businessType =
      (if nameMatches revenueNames (jsToLower "when") then some BusinessType.revenue
       else if nameMatches customerNames (jsToLower "when") then some BusinessType.customer
       else if nameMatches dateNames (jsToLower "when") then some BusinessType.date
       else if (detectColumnType "when" ["2024-01-01", "2024-01-01", "2024-01-01"]).type ≠
             ColType.numeric ∧
           2 * (detectColumnType "when" ["2024-01-01", "2024-01-01", "2024-01-01"]).uniqueValues <
             (["2024-01-01", "2024-01-01", "2024-01-01"].filter (fun v => v ≠ "")).length then
         some BusinessType.category
       else if (detectColumnType "when" ["2024-01-01", "2024-01-01", "2024-01-01"]).type =
             ColType.numeric ∧
           ¬ nameMatches revenueNames (jsToLower "when") = true then some BusinessType.quantity
       else none) :=
  (C4_amended_roles "when" ["2024-01-01", "2024-01-01", "2024-01-01"]).1

/-! ### Histogram lemmas -/

/-- A fold of `min` never exceeds its initial value. -/
theorem foldl_min_le_init (t : List ℚ) : ∀ i : ℚ, t.foldl min i ≤ i := by
  induction t with
  | nil => intro i; exact le_refl i
  | cons a t ih =>
    intro i
    exact le_trans (ih (min i a)) (min_le_left i a)

/-- A fold of `min` is a lower bound of the folded elements. -/
theorem foldl_min_le_mem (t : List ℚ) :
    ∀ (i x : ℚ), x ∈ t → t.foldl min i ≤ x := by
  induction t with
  | nil => intro i x hx; cases hx
  | cons a t ih =>
    intro i x hx
    rcases List.mem_cons.mp hx with rfl | hx
    · exact le_trans (foldl_min_le_init t (min i x)) (min_le_right i x)
    · exact ih (min i a) x hx

/-- Model of `Math.min(...values)` bounds the spread from below. -/
theorem jsMinList_le (l : List ℚ) (mn : ℚ) (h : jsMinList l = some mn) :
    ∀ x ∈ l, mn ≤ x := by
  match l, h with
  | a :: t, h =>
    have hmn : mn = t.foldl min a := by
      simp [jsMinList] at h
      exact h.symm
    intro x hx
    rcases List.mem_cons.mp hx with rfl | hx
    · exact hmn ▸ foldl_min_le_init t x
    · exact hmn ▸ foldl_min_le_mem t a x hx

/-- Incrementing one bin preserves the number of bins. -/
theorem length_binsIncr (bins : List ℕ) (oi : Option ℕ) :
    (binsIncr bins oi).length = bins.length := by
  cases oi <;> simp [binsIncr]

/-- Incrementing an in-range bin adds one to the total count. -/
theorem sum_binsIncr_some (bins : List ℕ) :
    ∀ i : ℕ, i < bins.length → (binsIncr bins (some i)).sum = bins.sum + 1 := by
  induction bins with
  | nil => intro i hi; simp at hi
  | cons b bs ih =>
    intro i hi
    cases i with
    | zero => simp [binsIncr]; omega
    | succ j =>
      have hj : j < bs.length := by simpa using hi
      have := ih j hj
      simp [binsIncr] at this ⊢
      omega

/-- With a positive bin width, every value at or above the minimum lands in
one of the ten bins (the clamp keeps the index at nine or below). -/
theorem jsBinIndex_some (v mn binSize : ℚ) (hpos : 0 < binSize) (hge : mn ≤ v) :
    ∃ i : ℕ, jsBinIndex v mn binSize 10 = some i ∧ i < 10 := by
  have hfl : 0 ≤ ⌊(v - mn) / binSize⌋ :=
    Int.floor_nonneg.mpr (div_nonneg (by linarith) hpos.le)
  have hj0 : 0 ≤ min ⌊(v - mn) / binSize⌋ (((10 : ℕ) : ℤ) - 1) := by
    apply le_min hfl
    norm_num
  refine ⟨(min ⌊(v - mn) / binSize⌋ (((10 : ℕ) : ℤ) - 1)).toNat, ?_, ?_⟩
  · rw [jsBinIndex, if_neg (ne_of_gt hpos)]
    dsimp only
    rw [if_neg (not_lt.mpr hj0)]
  · have h9 : min ⌊(v - mn) / binSize⌋ (((10 : ℕ) : ℤ) - 1) ≤ 9 := by
      refine le_trans (min_le_right _ _) ?_
      norm_num
    omega

/-- The bin-filling fold adds exactly one count per value when every value
has a valid bin. -/
theorem histogram_fold_sum (mn binSize : ℚ) (hpos : 0 < binSize) :
    ∀ (vals : List ℚ) (bins : List ℕ), bins.length = 10 →
      (∀ v ∈ vals, mn ≤ v) →
      (vals.foldl (fun b v => binsIncr b (jsBinIndex v mn binSize 10)) bins).sum =
        bins.sum + vals.length := by
  intro vals
  induction vals with
  | nil => intro bins _ _; simp
  | cons v vs ih =>
    intro bins hlen hbound
    rw [List.foldl_cons]
    obtain ⟨i, hi, hilt⟩ :=
      jsBinIndex_some v mn binSize hpos (hbound v (List.mem_cons_self v vs))
    rw [hi]
    rw [ih (binsIncr bins (some i))
      (by rw [length_binsIncr]; exact hlen)
      (fun x hx => hbound x (List.mem_cons_of_mem v hx))]
    rw [sum_binsIncr_some bins i (by omega)]
    simp only [List.length_cons]
    omega

/-- With a zero bin width every JS bin index is `NaN` and the fold leaves
the bins untouched. -/
theorem histogram_fold_zero (mn : ℚ) :
    ∀ (vals : List ℚ) (bins : List ℕ),
      vals.foldl (fun b v => binsIncr b (jsBinIndex v mn 0 10)) bins = bins := by
  intro vals
  induction vals with
  | nil => intro bins; rfl
  | cons v vs ih =>
    intro bins
    rw [List.foldl_cons]
    have h : jsBinIndex v mn 0 10 = none := by
      rw [jsBinIndex, if_pos rfl]
    rw [h]
    exact ih bins

/-- A value equal to the maximum is clamped into the last bin. -/
theorem jsBinIndex_max_clamp (mn mx : ℚ) (h : mn < mx) :
    jsBinIndex mx mn ((mx - mn) / 10) 10 = some 9 := by
  have ha : (0 : ℚ) < mx - mn := by linarith
  have hbs : (0 : ℚ) < (mx - mn) / 10 := by positivity
  have hq : (mx - mn) / ((mx - mn) / 10) = 10 := by
    rw [div_div_eq_mul_div, mul_comm, mul_div_assoc, div_self (ne_of_gt ha), mul_one]
  rw [jsBinIndex, if_neg (ne_of_gt hbs), hq]
  dsimp only
  norm_num [Int.floor_intCast]
  decide

/-- Claim C5 (amended): over `[min, max]` of the parsed values the ten bin
counts sum to the value count **whenever the width is positive
(`min < max`)**, and a value equal to the maximum is clamped into bin 9;
when all parsed values are equal (`min = max`) the JS bin index is `NaN`
and every bin count is zero, contrary to the claim's `min = max` edge case;
with no parsed values all bins are zero. -/
theorem C5_amended_histogram (vals : List ℚ) :
    (vals = [] → (createHistogramBins vals 10).2.sum = 0) ∧
    (∀ mn mx : ℚ, jsMinList vals = some mn → jsMaxList vals = some mx →
      ((mn < mx →
          (createHistogramBins vals 10).2.sum = vals.length ∧
          jsBinIndex mx mn ((mx - mn) / 10) 10 = some 9) ∧
       (mn = mx → (createHistogramBins vals 10).2 = List.replicate 10 0))) := by
  constructor
  · intro hnil
    subst hnil
    simp [createHistogramBins, jsMinList, jsMaxList]
  · intro mn mx hmn hmx
    constructor
    · intro hlt
      have hbs : (0 : ℚ) < (mx - mn) / 10 := by
        have : (0 : ℚ) < mx - mn := by linarith
        positivity
      constructor
      · simp only [createHistogramBins, hmn, hmx]
        push_cast
        have hs := histogram_fold_sum mn ((mx - mn) / 10) hbs vals
          (List.replicate 10 0) (by simp) (jsMinList_le vals mn hmn)
        simpa using hs
      · exact jsBinIndex_max_clamp mn mx hlt
    · intro heq
      subst heq
      simp only [createHistogramBins, hmn, hmx]
      push_cast
      have hz : (mn - mn) / (10 : ℚ) = 0 := by simp
      rw [hz]
      have h0 := histogram_fold_zero mn vals (List.replicate 10 0)
      simpa using h0

/-- Witness for the amended C5 at the two-point list `[1, 2]`. -/
theorem C5_witness :
    (createHistogramBins [(1 : ℚ), 2] 10).2.sum = 2 ∧
    jsBinIndex 2 1 (((2 : ℚ) - 1) / 10) 10 = some 9 :=
  ((C5_amended_histogram [(1 : ℚ), 2]).2 1 2 (by decide) (by decide)).1 (by norm_num)

end InsightLens
